import Mathlib

/-!
Verification of the content-loader module of the affordability website
(`src/js/content-loader.js`).  The JavaScript functions are shallowly
embedded as executable Lean functions over `List Char` / `String`; stateful
browser behaviour (the retry timer, the lightbox key listeners, the
load/fallback protocol) is embedded as explicit state-transition functions.

Conventions:
* Regex-replacement passes are modelled as left-to-right scanners.  A scanner
  that can consume more than one character per step takes an explicit fuel
  argument (instantiated with the input length) so that every definition is
  structurally recursive and kernel-reducible.
* JavaScript's `\s` class is modelled on the ASCII range, `\w` is
  `[A-Za-z0-9_]` exactly as in JavaScript.
-/

set_option maxRecDepth 100000

namespace ContentLoader

/-- JavaScript whitespace (`\s`, also the characters trimmed by
`String.prototype.trim`), restricted to the ASCII range. -/
def jsIsSpace (c : Char) : Bool :=
  c == ' ' || c == '\t' || c == '\n' || c == '\r' || c == '\x0b' || c == '\x0c'

/-- JavaScript word-character class `\w`, i.e. `[A-Za-z0-9_]`. -/
def jsIsWordChar (c : Char) : Bool :=
  c.isAlpha || c.isDigit || c == '_'

/-- `String.prototype.trim`: drop leading and trailing whitespace. -/
def trimList (cs : List Char) : List Char :=
  ((cs.dropWhile jsIsSpace).reverse.dropWhile jsIsSpace).reverse

/-- Does `pat` occur as a contiguous substring of `xs`? -/
def occursIn (pat : List Char) : List Char → Bool
  | [] => pat.isEmpty
  | c :: cs => pat.isPrefixOf (c :: cs) || occursIn pat cs

/-- String-level wrapper for `occursIn`. -/
def containsStr (pat s : String) : Bool :=
  occursIn pat.data s.data

/-- Split at the first occurrence of `pat`: returns the part before the
occurrence and the part after it.  (`none` if `pat` never occurs.) -/
def splitFirst (pat : List Char) : List Char → Option (List Char × List Char)
  | [] => if pat.isEmpty then some ([], []) else none
  | c :: cs =>
    if pat.isPrefixOf (c :: cs) then
      some ([], (c :: cs).drop pat.length)
    else
      match splitFirst pat cs with
      | some (pre, post) => some (c :: pre, post)
      | none => none

/-- Fuel-driven global replacement of the literal pattern `pat` by `repl`
(the model of `String.prototype.replace` with a `g`-flagged literal pattern:
scan left to right, never rescan replaced output). -/
def replaceAllFuel (pat repl : List Char) : Nat → List Char → List Char
  | 0, cs => cs
  | _ + 1, [] => []
  | n + 1, c :: cs =>
    if pat.isEmpty then c :: cs
    else if pat.isPrefixOf (c :: cs) then
      repl ++ replaceAllFuel pat repl n (cs.drop (pat.length - 1))
    else
      c :: replaceAllFuel pat repl n cs

/-- Global replacement of a literal pattern. -/
def replaceAll (pat repl cs : List Char) : List Char :=
  replaceAllFuel pat repl cs.length cs

/-- Split a buffer into its lines (the units on which the `gm`-anchored
line patterns of the source operate). -/
def splitOnNl : List Char → List (List Char)
  | [] => [[]]
  | c :: cs =>
    match splitOnNl cs with
    | [] => [[]]
    | l :: ls => if c == '\n' then [] :: l :: ls else (c :: l) :: ls

/-- Rejoin lines with newline separators. -/
def joinNl : List (List Char) → List Char
  | [] => []
  | [l] => l
  | l :: ls => l ++ '\n' :: joinNl ls

/-- Apply a per-line transformation to every line of the buffer
(the model of a `^...$` pattern with the `gm` flags). -/
def applyLinewise (f : List Char → List Char) (cs : List Char) : List Char :=
  joinNl ((splitOnNl cs).map f)

/-- ASCII-lowercase both sides and compare (case-insensitive matching of a
literal, for the `i`-flagged callout patterns). -/
def isPrefixOfCI (pat cs : List Char) : Bool :=
  (pat.map Char.toLower).isPrefixOf (cs.map Char.toLower)

/-- The backtick character (delimiter of inline code spans). -/
def backtickChar : Char := Char.ofNat 96

/-! ### slugify (source lines 338-345)

The source lowercases, deletes every character outside the class
`[^ \w \s hyphen ]`, replaces each whitespace run `\s+` by a hyphen,
collapses each hyphen run to a single hyphen, and finally calls `.trim()`.
-/

/-- The pass deleting every character outside word characters, whitespace
and hyphens (the first `replace` of `slugify`). -/
def stripNonWord (cs : List Char) : List Char :=
  cs.filter (fun c => jsIsWordChar c || jsIsSpace c || c == '-')

/-- The `\s+`-to-hyphen pass: each maximal whitespace run becomes one
hyphen.  The boolean argument records whether the previous character was
part of a whitespace run already replaced. -/
def spacesToHyphens : Bool → List Char → List Char
  | _, [] => []
  | prevSpace, c :: cs =>
    if jsIsSpace c then
      (if prevSpace then [] else ['-']) ++ spacesToHyphens true cs
    else
      c :: spacesToHyphens false cs

/-- The hyphen-run pass: each maximal hyphen run becomes one hyphen. -/
def collapseHyphens : Bool → List Char → List Char
  | _, [] => []
  | prevHyphen, c :: cs =>
    if c == '-' then
      (if prevHyphen then [] else ['-']) ++ collapseHyphens true cs
    else
      c :: collapseHyphens false cs

/-- List-level `slugify`: lowercase, strip, whitespace runs to hyphens,
collapse hyphen runs, then `.trim()`. -/
def slugifyL (cs : List Char) : List Char :=
  trimList (collapseHyphens false
    (spacesToHyphens false (stripNonWord (cs.map Char.toLower))))

/-- `ContentLoader.slugify` (source lines 338-345).  Note that the final
`.trim()` of the source removes only *whitespace* — and every whitespace
character has already been turned into a hyphen by the `\s+` pass — so no
leading or trailing hyphen is ever removed by it. -/
def slugify (text : String) : String :=
  ⟨slugifyL text.data⟩

/-- Modelled from the spec (its words, for comparison with the code):
"Lowercase, strip all characters outside letters/digits/whitespace/hyphen,
collapse whitespace runs to single hyphens, collapse repeated hyphens, trim
leading/trailing hyphens." -/
def slugifySpecText (text : String) : String :=
  let kept := (text.data.map Char.toLower).filter
    (fun c => c.isAlpha || c.isDigit || jsIsSpace c || c == '-')
  let hyphened := collapseHyphens false (spacesToHyphens false kept)
  ⟨((hyphened.dropWhile (· == '-')).reverse.dropWhile (· == '-')).reverse⟩

/-- Lazy nonempty capture before a closing delimiter (the model of a
`(.+?)` group followed by a literal closer): the capture is the shortest
nonempty text whose end is followed by the closer, i.e. the text up to the
first occurrence of the closer that starts at index at least 1.  Whether a
newline may appear inside the capture is checked by the caller (the dot of
a regex does not match a newline). -/
def lazyCapture (cls : List Char) : List Char → Option (List Char × List Char)
  | [] => none
  | r :: rs =>
    match splitFirst cls rs with
    | some (pre, post) => some (r :: pre, post)
    | none => none

/-! ### Configuration (source lines 25-31) -/

structure Config where
  contentBasePath : String
  imageBasePath : String
  defaultContentId : String
  generateTOC : Bool
  tocContainerId : String

/-- The default configuration object of the source. -/
def defaultConfig : Config :=
  { contentBasePath := "../content/"
    imageBasePath := "../assets/"
    defaultContentId := "markdown-content"
    generateTOC := true
    tocContainerId := "table-of-contents" }

/-- `resolveImagePath` (source lines 326-333): absolute, network and
inline-data paths pass through, everything else is prefixed with the
configured image base path. -/
def resolveImagePath (src : List Char) : List Char :=
  if "http".data.isPrefixOf src || "data:".data.isPrefixOf src
      || "/".data.isPrefixOf src then
    src
  else
    defaultConfig.imageBasePath.data ++ src

/-! ### Markup transformation passes (source lines 152-321) -/

/-- Escaping pass (source lines 156-158): ampersand first, then the angle
brackets. -/
def escapeHtml (cs : List Char) : List Char :=
  replaceAll ">".data "&gt;".data
    (replaceAll "<".data "&lt;".data
      (replaceAll "&".data "&amp;".data cs))

/-- The five callout kinds, in the order the source iterates them. -/
def calloutTypes : List String := ["note", "warning", "tip", "info", "important"]

/-- One callout kind's pass (source lines 243-248): case-insensitively match
the start marker line, capture lazily up to the nearest end marker, and
replace with a styled block around the trimmed content. -/
def replaceCalloutFuel (ty : List Char) : Nat → List Char → List Char
  | 0, cs => cs
  | _ + 1, [] => []
  | n + 1, c :: cs =>
    let pat := ':' :: ':' :: ':' :: (ty ++ ['\n'])
    if isPrefixOfCI pat (c :: cs) then
      match splitFirst ":::".data ((c :: cs).drop pat.length) with
      | some (content, rest) =>
        "<div class=\"info-box ".data ++ ty ++ "\">".data ++ trimList content
          ++ "</div>".data ++ replaceCalloutFuel ty n rest
      | none => c :: replaceCalloutFuel ty n cs
    else c :: replaceCalloutFuel ty n cs

/-- `parseCallouts` (source lines 239-251). -/
def parseCallouts (cs : List Char) : List Char :=
  calloutTypes.foldl (fun acc ty => replaceCalloutFuel ty.data acc.length acc) cs

/-- The tail `\s+` then `.+` of the anchored line patterns, with the regex
backtracking behaviour: at least one whitespace character must follow the
marker, and the (greedy, line-bounded) text capture must be nonempty — when
the remainder is all whitespace the engine backtracks and the last
whitespace character itself becomes the text. -/
def matchSpaceText (rest : List Char) : Option (List Char) :=
  let ws := rest.takeWhile jsIsSpace
  let txt := rest.dropWhile jsIsSpace
  if ws.isEmpty then none
  else if txt.isEmpty then
    if ws.length ≥ 2 then some (ws.drop (ws.length - 1)) else none
  else some txt

/-- One heading line pass (source lines 164-169): `k` hash marks, at least
one whitespace character, then the heading text.  Only level 2 writes an
`id` attribute (filled in with the proper slug by the follow-up pass of
source lines 172-175). -/
def headingLine (k : Nat) (line : List Char) : List Char :=
  if (List.replicate k '#').isPrefixOf line then
    match matchSpaceText (line.drop k) with
    | some txt =>
      if k == 2 then
        "<h2 id=\"".data ++ txt ++ "\">".data ++ txt ++ "</h2>".data
      else
        "<h".data ++ (toString k).data ++ ">".data ++ txt
          ++ "</h".data ++ (toString k).data ++ ">".data
    | none => line
  else line

/-- The id-generation pass (source lines 172-175): rewrite every
`<h2 id="...">...</h2>` occurrence so that its id is the slug of its
content. -/
def applyH2IdsFuel : Nat → List Char → List Char
  | 0, cs => cs
  | _ + 1, [] => []
  | n + 1, c :: cs =>
    if "<h2 id=\"".data.isPrefixOf (c :: cs) then
      match lazyCapture "\">".data ((c :: cs).drop 8) with
      | some (idText, rest1) =>
        if idText.contains '\n' then c :: applyH2IdsFuel n cs
        else
          match lazyCapture "</h2>".data rest1 with
          | some (content, rest2) =>
            if content.contains '\n' then c :: applyH2IdsFuel n cs
            else
              "<h2 id=\"".data ++ slugifyL content ++ "\">".data ++ content
                ++ "</h2>".data ++ applyH2IdsFuel n rest2
          | none => c :: applyH2IdsFuel n cs
      | none => c :: applyH2IdsFuel n cs
    else c :: applyH2IdsFuel n cs

/-- One emphasis pass (source lines 178-183): opener, lazy nonempty
line-bounded capture, closer. -/
def replaceDelimFuel (opn cls pre post : List Char) : Nat → List Char → List Char
  | 0, cs => cs
  | _ + 1, [] => []
  | n + 1, c :: cs =>
    if opn.isPrefixOf (c :: cs) then
      match lazyCapture cls ((c :: cs).drop opn.length) with
      | some (content, rest) =>
        if content.contains '\n' then c :: replaceDelimFuel opn cls pre post n cs
        else pre ++ content ++ post ++ replaceDelimFuel opn cls pre post n rest
      | none => c :: replaceDelimFuel opn cls pre post n cs
    else c :: replaceDelimFuel opn cls pre post n cs

/-- Match the captioned-image syntax at the current position
(source line 186): alt text in brackets, then an opening parenthesis, a
source path free of parentheses and quotes, at least one whitespace
character, a quoted nonempty caption, and the closing parenthesis.
Regex backtracking makes the path capture as long as possible while
leaving a nonempty whitespace run before the opening quote, so the path is
everything up to the quote minus one final whitespace character. -/
def matchImageCaptionAt (cs : List Char) : Option (List Char × List Char × List Char × List Char) :=
  if "![".data.isPrefixOf cs then
    match splitFirst "]".data (cs.drop 2) with
    | some (alt, r1) =>
      match r1 with
      | '(' :: r2 =>
        let p := r2.takeWhile (fun c => c != ')' && c != '"')
        let afterP := r2.drop p.length
        if p.length ≥ 2 && jsIsSpace (p.getLastD ' ') then
          match afterP with
          | '"' :: r3 =>
            match splitFirst "\"".data r3 with
            | some (cap, r4) =>
              if cap.isEmpty then none
              else
                match r4 with
                | ')' :: rest => some (alt, p.dropLast, cap, rest)
                | _ => none
            | none => none
          | _ => none
        else none
      | _ => none
    | none => none
  else none

/-- The figure replacement emitted for a captioned image (source lines
188-191, with the template literal's exact whitespace). -/
def figureRepl (alt src cap : List Char) : List Char :=
  "<figure class=\"figure\">\n                <img src=\"".data
    ++ resolveImagePath src ++ "\" alt=\"".data ++ alt
    ++ "\" loading=\"lazy\">\n                <figcaption class=\"figure-caption\">".data
    ++ cap ++ "</figcaption>\n            </figure>".data

/-- The captioned-image pass (source lines 186-192). -/
def imageCaptionFuel : Nat → List Char → List Char
  | 0, cs => cs
  | _ + 1, [] => []
  | n + 1, c :: cs =>
    match matchImageCaptionAt (c :: cs) with
    | some (alt, src, cap, rest) => figureRepl alt src cap ++ imageCaptionFuel n rest
    | none => c :: imageCaptionFuel n cs

/-- Match the classed-image syntax at the current position (source
line 195): alt text, parenthesised path, then a brace-dot class marker. -/
def matchImageClassAt (cs : List Char) : Option (List Char × List Char × List Char × List Char) :=
  if "![".data.isPrefixOf cs then
    match splitFirst "]".data (cs.drop 2) with
    | some (alt, r1) =>
      match r1 with
      | '(' :: r2 =>
        match splitFirst ")".data r2 with
        | some (src, r3) =>
          if src.isEmpty then none
          else
            match r3 with
            | '\x7b' :: '.' :: r4 =>
              match splitFirst "\x7d".data r4 with
              | some (cls, rest) => if cls.isEmpty then none else some (alt, src, cls, rest)
              | none => none
            | _ => none
        | none => none
      | _ => none
    | none => none
  else none

/-- The classed-image pass (source lines 195-198). -/
def imageClassFuel : Nat → List Char → List Char
  | 0, cs => cs
  | _ + 1, [] => []
  | n + 1, c :: cs =>
    match matchImageClassAt (c :: cs) with
    | some (alt, src, cls, rest) =>
      "<img src=\"".data ++ resolveImagePath src ++ "\" alt=\"".data ++ alt
        ++ "\" class=\"".data ++ cls ++ "\" loading=\"lazy\">".data
        ++ imageClassFuel n rest
    | none => c :: imageClassFuel n cs

/-- Match the plain image syntax at the current position (source line 201). -/
def matchImagePlainAt (cs : List Char) : Option (List Char × List Char × List Char) :=
  if "![".data.isPrefixOf cs then
    match splitFirst "]".data (cs.drop 2) with
    | some (alt, r1) =>
      match r1 with
      | '(' :: r2 =>
        match splitFirst ")".data r2 with
        | some (src, rest) => if src.isEmpty then none else some (alt, src, rest)
        | none => none
      | _ => none
    | none => none
  else none

/-- The plain-image pass (source lines 201-204). -/
def imagePlainFuel : Nat → List Char → List Char
  | 0, cs => cs
  | _ + 1, [] => []
  | n + 1, c :: cs =>
    match matchImagePlainAt (c :: cs) with
    | some (alt, src, rest) =>
      "<img src=\"".data ++ resolveImagePath src ++ "\" alt=\"".data ++ alt
        ++ "\" loading=\"lazy\">".data ++ imagePlainFuel n rest
    | none => c :: imagePlainFuel n cs

/-- The link pass (source line 207): bracketed nonempty text, parenthesised
nonempty target. -/
def linksFuel : Nat → List Char → List Char
  | 0, cs => cs
  | _ + 1, [] => []
  | n + 1, c :: cs =>
    match (if c == '[' then
      match splitFirst "]".data cs with
      | some (text, r1) =>
        if text.isEmpty then none
        else
          match r1 with
          | '(' :: r2 =>
            match splitFirst ")".data r2 with
            | some (target, rest) => if target.isEmpty then none else some (text, target, rest)
            | none => none
          | _ => none
      | none => none
    else none) with
    | some (text, target, rest) =>
      "<a href=\"".data ++ target ++ "\">".data ++ text ++ "</a>".data
        ++ linksFuel n rest
    | none => c :: linksFuel n cs

/-- The inline-code pass (source line 210): backtick, nonempty run of
non-backtick characters, backtick. -/
def inlineCodeFuel : Nat → List Char → List Char
  | 0, cs => cs
  | _ + 1, [] => []
  | n + 1, c :: cs =>
    if c == backtickChar then
      let content := cs.takeWhile (fun d => d != backtickChar)
      let rest := cs.dropWhile (fun d => d != backtickChar)
      match rest with
      | _ :: rs =>
        if content.isEmpty then c :: inlineCodeFuel n cs
        else "<code>".data ++ content ++ "</code>".data ++ inlineCodeFuel n rs
      | [] => c :: inlineCodeFuel n cs
    else c :: inlineCodeFuel n cs

/-- The fenced-code-block pass (source lines 213-216): triple backtick, an
optional word-character language tag, a newline, a lazy multi-line capture
and the closing triple backtick; the language tag only contributes a class
name and the captured code is trimmed. -/
def codeBlocksFuel : Nat → List Char → List Char
  | 0, cs => cs
  | _ + 1, [] => []
  | n + 1, c :: cs =>
    let fence := [backtickChar, backtickChar, backtickChar]
    if fence.isPrefixOf (c :: cs) then
      let lang := ((c :: cs).drop 3).takeWhile jsIsWordChar
      let after := ((c :: cs).drop 3).drop lang.length
      match after with
      | '\n' :: body =>
        match splitFirst fence body with
        | some (code, rest) =>
          "<pre".data
            ++ (if lang.isEmpty then [] else " class=\"language-".data ++ lang ++ "\"".data)
            ++ "><code>".data ++ trimList code ++ "</code></pre>".data
            ++ codeBlocksFuel n rest
        | none => c :: codeBlocksFuel n cs
      | _ => c :: codeBlocksFuel n cs
    else c :: codeBlocksFuel n cs

/-- The quote-line pass (source line 219), applied per line after escaping
has turned the quote marker into `&gt;`. -/
def blockquoteLine (line : List Char) : List Char :=
  if "&gt;".data.isPrefixOf line then
    match matchSpaceText (line.drop 4) with
    | some txt => "<blockquote>".data ++ txt ++ "</blockquote>".data
    | none => line
  else line

/-- The horizontal-rule passes (source lines 224-225): a line of three or
more hyphens, or of three or more asterisks, alone. -/
def hrLine (marker : Char) (line : List Char) : List Char :=
  if line.length ≥ 3 && line.all (fun c => c == marker) then "<hr>".data else line

/-! ### List pass (source lines 256-299) -/

/-- The scan state of `parseLists`: whether a list is open and its type
(the source keeps the type as the string used in the tags). -/
structure ListScanState where
  inList : Bool
  listType : String
deriving DecidableEq

/-- The unordered-list line pattern: a hyphen or asterisk marker, then
whitespace and the item text. -/
def ulMatchLine : List Char → Option (List Char)
  | [] => none
  | c :: cs => if c == '-' || c == '*' then matchSpaceText cs else none

/-- The ordered-list line pattern: digits, a dot, then whitespace and the
item text. -/
def olMatchLine (line : List Char) : Option (List Char) :=
  let digits := line.takeWhile Char.isDigit
  let rest := line.dropWhile Char.isDigit
  if digits.isEmpty then none
  else
    match rest with
    | '.' :: rs => matchSpaceText rs
    | _ => none

/-- The closing tag for the currently open list. -/
def closeTag (st : ListScanState) : List Char :=
  "</".data ++ st.listType.data ++ ">".data

/-- One step of the forward scan of `parseLists` (source lines 263-292):
the lines emitted for the current input line, and the new state.  A change
of list type or a non-list line closes the open list before continuing. -/
def processLine (st : ListScanState) (line : List Char) : ListScanState × List (List Char) :=
  match ulMatchLine line with
  | some item =>
    if !st.inList || st.listType != "ul" then
      (⟨true, "ul"⟩,
        (if st.inList then [closeTag st] else [])
          ++ ["<ul>".data, "<li>".data ++ item ++ "</li>".data])
    else (st, ["<li>".data ++ item ++ "</li>".data])
  | none =>
    match olMatchLine line with
    | some item =>
      if !st.inList || st.listType != "ol" then
        (⟨true, "ol"⟩,
          (if st.inList then [closeTag st] else [])
            ++ ["<ol>".data, "<li>".data ++ item ++ "</li>".data])
      else (st, ["<li>".data ++ item ++ "</li>".data])
    | none =>
      if st.inList then (⟨false, ""⟩, [closeTag st, line])
      else (st, [line])

/-- The full forward scan, closing a still-open list at the end
(source lines 294-296). -/
def parseListsAux : ListScanState → List (List Char) → List (List Char)
  | st, [] => if st.inList then [closeTag st] else []
  | st, l :: ls =>
    let step := processLine st l
    step.2 ++ parseListsAux step.1 ls

/-- `parseLists` (source lines 256-299). -/
def parseListsL (cs : List Char) : List Char :=
  joinNl (parseListsAux ⟨false, ""⟩ (splitOnNl cs))

/-- String-level `parseLists`. -/
def parseLists (s : String) : String := ⟨parseListsL s.data⟩

/-! ### Paragraph pass (source lines 304-321) -/

/-- Split on blank-line boundaries (runs of two or more newlines). -/
def splitBlocksFuel : Nat → List Char → List (List Char)
  | 0, cs => [cs]
  | _ + 1, [] => [[]]
  | n + 1, c :: cs =>
    if c == '\n' && cs.head? == some '\n' then
      [] :: splitBlocksFuel n (cs.dropWhile (fun d => d == '\n'))
    else
      match splitBlocksFuel n cs with
      | [] => [[c]]
      | b :: bs => (c :: b) :: bs

/-- The tag names whose presence at the start of a (trimmed) block
suppresses paragraph wrapping (source line 311). -/
def blockTagNames : List String :=
  ["h1", "h2", "h3", "h4", "h5", "h6", "ul", "ol", "li", "blockquote",
   "pre", "div", "figure", "hr", "table"]

/-- Does the block start with an opening angle bracket followed
(case-insensitively) by one of the recognized block-level tag names? -/
def startsBlockTag (cs : List Char) : Bool :=
  blockTagNames.any (fun t => isPrefixOfCI ('<' :: t.data) cs)

/-- The per-block mapper of `parseParagraphs` (source lines 307-320):
trim; keep blocks that already start with a block-level tag; drop empty
blocks; wrap everything else in a paragraph, turning inner newlines into
line breaks. -/
def wrapBlock (b : List Char) : List Char :=
  let tb := trimList b
  if startsBlockTag tb then tb
  else if tb.isEmpty then []
  else "<p>".data ++ replaceAll "\n".data "<br>".data tb ++ "</p>".data

/-- Rejoin the mapped blocks with blank lines (source line 320). -/
def joinBlocks : List (List Char) → List Char
  | [] => []
  | [b] => b
  | b :: bs => b ++ '\n' :: '\n' :: joinBlocks bs

/-- `parseParagraphs` (source lines 304-321). -/
def parseParagraphsL (cs : List Char) : List Char :=
  joinBlocks ((splitBlocksFuel cs.length cs).map wrapBlock)

/-- String-level `parseParagraphs`. -/
def parseParagraphs (s : String) : String := ⟨parseParagraphsL s.data⟩

/-! ### The full transformer `parseMarkdown` (source lines 152-234) -/

/-- The heading stage of `parseMarkdown` (source lines 163-175): the six
per-level passes, longest marker first, then the id-generation pass. -/
def headingStage (cs : List Char) : List Char :=
  let h := applyLinewise (headingLine 6) cs
  let h := applyLinewise (headingLine 5) h
  let h := applyLinewise (headingLine 4) h
  let h := applyLinewise (headingLine 3) h
  let h := applyLinewise (headingLine 2) h
  let h := applyLinewise (headingLine 1) h
  applyH2IdsFuel h.length h

/-- `parseMarkdown` (source lines 152-234), as the ordered composition of
all passes. -/
def parseMarkdownL (cs : List Char) : List Char :=
  let h := escapeHtml cs
  let h := parseCallouts h
  let h := headingStage h
  let h := replaceDelimFuel "***".data "***".data "<strong><em>".data "</em></strong>".data h.length h
  let h := replaceDelimFuel "**".data "**".data "<strong>".data "</strong>".data h.length h
  let h := replaceDelimFuel "*".data "*".data "<em>".data "</em>".data h.length h
  let h := replaceDelimFuel "___".data "___".data "<strong><em>".data "</em></strong>".data h.length h
  let h := replaceDelimFuel "__".data "__".data "<strong>".data "</strong>".data h.length h
  let h := replaceDelimFuel "_".data "_".data "<em>".data "</em>".data h.length h
  let h := imageCaptionFuel h.length h
  let h := imageClassFuel h.length h
  let h := imagePlainFuel h.length h
  let h := linksFuel h.length h
  let h := inlineCodeFuel h.length h
  let h := codeBlocksFuel h.length h
  let h := applyLinewise blockquoteLine h
  let h := replaceAll "</blockquote>\n<blockquote>".data "\n".data h
  let h := applyLinewise (hrLine '-') h
  let h := applyLinewise (hrLine '*') h
  let h := parseListsL h
  parseParagraphsL h

/-- String-level `parseMarkdown`. -/
def parseMarkdown (markdown : String) : String := ⟨parseMarkdownL markdown.data⟩

/-! ### Navigation generation (source lines 350-378)

`generateTableOfContents` reads the rendered headings back out of the
container's DOM.  The DOM read-back of one level-2 heading element is
modelled by extracting its id attribute and text content from the rendered
string. -/

/-- Modelled DOM read-back: the (identifier, text content) of the first
level-2 heading element of the rendered output. -/
def firstH2 (s : String) : Option (String × String) :=
  match splitFirst "<h2 id=\"".data s.data with
  | some (_, r1) =>
    match splitFirst "\">".data r1 with
    | some (idText, r2) =>
      match splitFirst "</h2>".data r2 with
      | some (content, _) => some (⟨idText⟩, ⟨content⟩)
      | none => none
    | none => none
  | none => none

/-- The identifier the navigation generator assigns a heading (source
line 364): the existing id when it is a nonempty string, else the slug of
the heading's text (JavaScript's falsy check on the empty string). -/
def tocTarget (id text : String) : String :=
  if id = "" then slugify text else id

/-- The navigation entry emitted for one heading (source line 370). -/
def tocEntry (level id text : String) : String :=
  "<li class=\"toc-" ++ level ++ "\"><a href=\"#" ++ id ++ "\" data-target=\""
    ++ id ++ "\">" ++ text ++ "</a></li>"

/-! ### The retry timer (source lines 49-67)

`init` starts one interval timer.  On each tick the attempt counter is
incremented, every container still lacking a `lastRendered` snapshot is
re-loaded, and once the counter has reached the cap the timer clears
itself.  A tick of an already-cleared timer performs nothing. -/

/-- A content container as seen by the retry logic. -/
structure RetryContainer where
  source : String
  lastRendered : Option String

/-- The retry timer's state. -/
structure RetryTimer where
  attempts : Nat
  active : Bool
deriving DecidableEq

/-- `maxAttempts` (source line 53). -/
def maxAttempts : Nat := 3

/-- The timer as `init` starts it. -/
def initialTimer : RetryTimer := { attempts := 0, active := true }

/-- The sources whose containers still lack a snapshot — these are the
loads a live tick re-attempts (source lines 58-65). -/
def pendingSources (cs : List RetryContainer) : List String :=
  (cs.filter (fun c => c.lastRendered.isNone)).map (fun c => c.source)

/-- One timer tick (source lines 56-67): when the timer is live, bump the
counter, re-attempt every pending load, and clear the timer when the cap is
reached; a cleared timer does nothing.  Returns the new timer state and the
sources for which a retrieval was attempted on this tick. -/
def retryTick (cs : List RetryContainer) (t : RetryTimer) : RetryTimer × List String :=
  if t.active then
    ({ attempts := t.attempts + 1, active := decide (t.attempts + 1 < maxAttempts) },
      pendingSources cs)
  else (t, [])

/-- Run `n` ticks against containers that never acquire a snapshot,
collecting the per-tick lists of attempted sources. -/
def runRetries (cs : List RetryContainer) : Nat → RetryTimer × List (List String)
  | 0 => (initialTimer, [])
  | n + 1 =>
    let prev := runRetries cs n
    let step := retryTick cs prev.1
    (step.1, prev.2 ++ [step.2])

/-! ### The lightbox (source lines 514-541)

`openLightbox` appends an overlay, hides page scrolling and installs a
fresh `keydown` handler on the document.  The backdrop and the close
button dismiss via `close()`, which removes the overlay and restores
scrolling but does not touch the key handler; only the Escape-key path
removes the handler (and every still-installed stale handler likewise
removes itself when Escape fires). -/

/-- The document-level state relevant to the lightbox. -/
structure LightboxState where
  overlayPresent : Bool
  docKeydownListeners : Nat
  bodyOverflowHidden : Bool
deriving DecidableEq

/-- The page before any lightbox was opened. -/
def lightboxInitial : LightboxState :=
  { overlayPresent := false, docKeydownListeners := 0, bodyOverflowHidden := false }

/-- `openLightbox` (source lines 514-541): overlay added, scrolling hidden,
one more `keydown` handler installed on the document. -/
def openLightbox (s : LightboxState) : LightboxState :=
  { overlayPresent := true
    docKeydownListeners := s.docKeydownListeners + 1
    bodyOverflowHidden := true }

/-- The user events that can dismiss an overlay. -/
inductive LightboxEvent
  | clickBackdrop
  | clickDismiss
  | keydownEscape
  | keydownOther

/-- Event dispatch on the lightbox state.  Backdrop and dismiss-control
clicks run `close()` (source lines 528-534): overlay removed, scrolling
restored, key handler untouched.  An Escape keydown fires every installed
`escHandler`, each of which runs `close()` and removes itself (source
lines 535-540).  Other keydowns do nothing. -/
def lightboxStep (s : LightboxState) : LightboxEvent → LightboxState
  | .clickBackdrop | .clickDismiss =>
    if s.overlayPresent then
      { s with overlayPresent := false, bodyOverflowHidden := false }
    else s
  | .keydownEscape =>
    if s.docKeydownListeners > 0 then
      { overlayPresent := false, docKeydownListeners := 0, bodyOverflowHidden := false }
    else s
  | .keydownOther => s

/-! ### The retrieval coordinator `loadContent` (source lines 82-145)

The network path of `loadContent` is modelled as the sequence of container
effects it performs together with the exception, if any, escaping the
async function.  The fetch outcome is an explicit parameter. -/

/-- The outcome of `fetch`: a response with a status code, or a transport
error thrown by the fetch itself. -/
inductive FetchOutcome
  | response (status : Nat) (body : String)
  | transportError

/-- `Response.ok`: status in the 200-299 range. -/
def responseOk (status : Nat) : Bool :=
  200 ≤ status && status ≤ 299

/-- Does the outcome take `loadContent` into its `catch` block
(non-success status or transport error)? -/
def fetchFails : FetchOutcome → Bool
  | .response status _ => !responseOk status
  | .transportError => true

/-- The observable container effects `loadContent` can perform, in order. -/
inductive LoadEffect
  | setContent (s : String)
  | addClass (c : String)
  | setSnapshot (s : String)
  | generateTOC
  | augment (content : String)
  | animate
deriving DecidableEq

/-- The loading indicator written while a fetch is in flight
(source line 96). -/
def loadingIndicatorHTML : String :=
  "<div class=\"loading\"><div class=\"loading-spinner\"></div></div>"

/-- The uncaught exceptions the function can produce. -/
inductive JsError
  | referenceError
deriving DecidableEq

/-- In the `catch` block (source lines 137-144) the statement
`container.innerHTML = fallbackContent` reads `fallbackContent` — but that
binding is a `const` declared *inside* the `try` block (source line 95),
and JavaScript block scoping makes a `try`-block `const` invisible in the
associated `catch` block.  There is no other binding of that name anywhere
in the repository, so the name lookup fails and the read raises a
`ReferenceError`.  This visibility fact is recorded as a failing lookup. -/
def catchBlockFallbackLookup : Option String := none

/-- The network path of `loadContent` (source lines 93-144), given the
fetch outcome and the container's prior content: the ordered effect trace
and the exception, if any, escaping the async function.  The happy path
saves the prior content, shows the loading indicator, fetches, renders,
snapshots, swaps in the rendered output, and runs the navigation generator,
the interactive augmenter and the animations.  The failure path enters the
`catch` block, whose very first container mutation reads the out-of-scope
`fallbackContent` and therefore raises. -/
def loadContent (outcome : FetchOutcome) (priorContent : String) :
    List LoadEffect × Option JsError :=
  let _fallbackContent := priorContent
  let shown := [LoadEffect.setContent loadingIndicatorHTML]
  match outcome with
  | .response status body =>
    if responseOk status then
      let html := parseMarkdown body
      (shown ++
        [LoadEffect.setSnapshot (⟨html.data.take 800⟩ : String),
         LoadEffect.setContent html,
         LoadEffect.addClass "markdown-content"] ++
        (if defaultConfig.generateTOC then [LoadEffect.generateTOC] else []) ++
        [LoadEffect.augment html, LoadEffect.animate], none)
    else
      match catchBlockFallbackLookup with
      | some fb =>
        (shown ++
          [LoadEffect.setContent fb, LoadEffect.addClass "markdown-content",
           LoadEffect.augment fb], none)
      | none => (shown, some JsError.referenceError)
  | .transportError =>
    match catchBlockFallbackLookup with
    | some fb =>
      (shown ++
        [LoadEffect.setContent fb, LoadEffect.addClass "markdown-content",
         LoadEffect.augment fb], none)
    | none => (shown, some JsError.referenceError)

/-! ## Helper lemmas -/

theorem isPrefixOf_cons_cons (a b : Char) (as bs : List Char) :
    (a :: as).isPrefixOf (b :: bs) = (a == b && as.isPrefixOf bs) := rfl

theorem isPrefixOf_append_self (p ys : List Char) : p.isPrefixOf (p ++ ys) = true := by
  induction p with
  | nil => simp
  | cons a as ih => simp [isPrefixOf_cons_cons, ih]

theorem isPrefixOf_append_of_isPrefixOf {p s : List Char} (b : List Char)
    (h : p.isPrefixOf s = true) : p.isPrefixOf (s ++ b) = true := by
  induction p generalizing s with
  | nil => simp
  | cons a as ih =>
    cases s with
    | nil => simp [List.isPrefixOf] at h
    | cons x xs =>
      rw [isPrefixOf_cons_cons] at h
      rcases Bool.and_eq_true_iff.mp h with ⟨h1, h2⟩
      simp [isPrefixOf_cons_cons, h1, ih h2]

theorem occursIn_cons (pat : List Char) (c : Char) (cs : List Char) :
    occursIn pat (c :: cs) = (pat.isPrefixOf (c :: cs) || occursIn pat cs) := rfl

theorem occursIn_append_right (pat a b : List Char) (h : occursIn pat b = true) :
    occursIn pat (a ++ b) = true := by
  induction a with
  | nil => simpa using h
  | cons x xs ih => simp [occursIn_cons, ih]

theorem occursIn_append_left (pat a b : List Char) (h : occursIn pat a = true) :
    occursIn pat (a ++ b) = true := by
  induction a with
  | nil =>
    cases b with
    | nil => exact h
    | cons y ys =>
      simp only [occursIn] at h
      have : pat = [] := List.isEmpty_iff.mp h
      subst this
      simp [occursIn_cons, List.isPrefixOf]
  | cons x xs ih =>
    rw [occursIn_cons] at h
    rcases Bool.or_eq_true_iff.mp h with h1 | h1
    · have := isPrefixOf_append_of_isPrefixOf b h1
      simp only [List.cons_append] at this ⊢
      simp [occursIn_cons, this]
    · simp [occursIn_cons, ih h1]

theorem occursIn_of_middle (pat a m b : List Char) (h : occursIn pat m = true) :
    occursIn pat (a ++ m ++ b) = true := by
  rw [List.append_assoc]
  exact occursIn_append_right pat a (m ++ b) (occursIn_append_left pat m b h)

/-- `trimList cs` sits contiguously inside `cs`. -/
theorem trimList_middle (cs : List Char) :
    ∃ a b, cs = a ++ trimList cs ++ b := by
  unfold trimList
  set y := cs.dropWhile jsIsSpace with hy
  have h0 : cs = cs.takeWhile jsIsSpace ++ y :=
    (List.takeWhile_append_dropWhile jsIsSpace cs).symm
  have h1 : y.reverse = y.reverse.takeWhile jsIsSpace ++ y.reverse.dropWhile jsIsSpace :=
    (List.takeWhile_append_dropWhile jsIsSpace y.reverse).symm
  have h2 : y = (y.reverse.dropWhile jsIsSpace).reverse
      ++ (y.reverse.takeWhile jsIsSpace).reverse := by
    have h3 := congrArg List.reverse h1
    rwa [List.reverse_reverse, List.reverse_append] at h3
  refine ⟨cs.takeWhile jsIsSpace, (y.reverse.takeWhile jsIsSpace).reverse, ?_⟩
  rw [List.append_assoc, ← h2, ← h0]

theorem occursIn_trimList_false (pat cs : List Char) (h : occursIn pat cs = false) :
    occursIn pat (trimList cs) = false := by
  by_contra hne
  have htrue : occursIn pat (trimList cs) = true := Bool.ne_false_iff.mp hne
  obtain ⟨a, b, hab⟩ := trimList_middle cs
  have hocc := occursIn_of_middle pat a (trimList cs) b htrue
  rw [← hab] at hocc
  rw [hocc] at h
  exact Bool.noConfusion h

theorem mem_trimList {c : Char} {cs : List Char} (h : c ∈ trimList cs) : c ∈ cs := by
  obtain ⟨a, b, hab⟩ := trimList_middle cs
  rw [hab]
  simp only [List.mem_append]
  exact Or.inl (Or.inr h)

theorem isUpper_toLower (c : Char) : (Char.toLower c).isUpper = false := by
  unfold Char.toLower Char.isUpper
  simp only
  by_cases h : c.toNat ≥ 65 ∧ c.toNat ≤ 90
  · rw [if_pos h]
    have hval : (Char.ofNat (Char.toNat c + 32)).val.toNat = Char.toNat c + 32 := by
      rw [Char.ofNat, dif_pos (Or.inl (by omega : Char.toNat c + 32 < 55296))]
      simp [Char.ofNatAux, UInt32.toNat]
    have h90 : ¬ (Char.ofNat (Char.toNat c + 32)).val ≤ 90 := by
      rw [show ∀ a b : UInt32, (a ≤ b) = (a.toNat ≤ b.toNat) from fun a b => by
            simp [UInt32.le_def, BitVec.le_def, UInt32.toNat],
        hval, show ((90 : UInt32).toNat = 90) from rfl]
      omega
    simp [h90]
  · rw [if_neg h]
    simp only [Char.toNat] at h
    have hside : ¬ ((65 : UInt32) ≤ c.val ∧ c.val ≤ (90 : UInt32)) := by
      rw [show ∀ a b : UInt32, (a ≤ b) = (a.toNat ≤ b.toNat) from fun a b => by
            simp [UInt32.le_def, BitVec.le_def, UInt32.toNat],
        show ∀ a b : UInt32, (a ≤ b) = (a.toNat ≤ b.toNat) from fun a b => by
            simp [UInt32.le_def, BitVec.le_def, UInt32.toNat],
        show ((65 : UInt32).toNat = 65) from rfl, show ((90 : UInt32).toNat = 90) from rfl]
      omega
    rcases Decidable.not_and_iff_or_not.mp hside with h1 | h1 <;> simp [h1]

theorem mem_spacesToHyphens {c : Char} :
    ∀ (cs : List Char) (b : Bool), c ∈ spacesToHyphens b cs →
      c = '-' ∨ (c ∈ cs ∧ jsIsSpace c = false) := by
  intro cs
  induction cs with
  | nil => intro b h; simp [spacesToHyphens] at h
  | cons d ds ih =>
    intro b h
    unfold spacesToHyphens at h
    by_cases hd : jsIsSpace d
    · rw [if_pos hd] at h
      rcases List.mem_append.mp h with h1 | h1
      · left
        cases b with
        | true => simp at h1
        | false => simpa using h1
      · rcases ih true h1 with h2 | ⟨h2, h3⟩
        · exact Or.inl h2
        · exact Or.inr ⟨List.mem_cons_of_mem d h2, h3⟩
    · rw [if_neg hd] at h
      rcases List.mem_cons.mp h with h1 | h1
      · subst h1
        exact Or.inr ⟨List.mem_cons_self c ds, by simpa using hd⟩
      · rcases ih false h1 with h2 | ⟨h2, h3⟩
        · exact Or.inl h2
        · exact Or.inr ⟨List.mem_cons_of_mem d h2, h3⟩

theorem mem_collapseHyphens {c : Char} :
    ∀ (cs : List Char) (b : Bool), c ∈ collapseHyphens b cs → c = '-' ∨ c ∈ cs := by
  intro cs
  induction cs with
  | nil => intro b h; simp [collapseHyphens] at h
  | cons d ds ih =>
    intro b h
    unfold collapseHyphens at h
    by_cases hd : d == '-'
    · rw [if_pos hd] at h
      rcases List.mem_append.mp h with h1 | h1
      · left
        cases b with
        | true => simp at h1
        | false => simpa using h1
      · rcases ih true h1 with h2 | h2
        · exact Or.inl h2
        · exact Or.inr (List.mem_cons_of_mem d h2)
    · rw [if_neg hd] at h
      rcases List.mem_cons.mp h with h1 | h1
      · subst h1; exact Or.inr (List.mem_cons_self c ds)
      · rcases ih false h1 with h2 | h2
        · exact Or.inl h2
        · exact Or.inr (List.mem_cons_of_mem d h2)

theorem head_ne_of_isPrefixOf_single_false {r : List Char} (a : Char)
    (h : r.head? ≠ some a) : [a].isPrefixOf r = false := by
  cases r with
  | nil => rfl
  | cons x xs =>
    simp only [List.head?] at h
    have hx : a ≠ x := fun he => h (by rw [he])
    simp [isPrefixOf_cons_cons, hx]

theorem collapseHyphens_no_dd :
    ∀ (cs : List Char) (b : Bool),
      occursIn ['-', '-'] (collapseHyphens b cs) = false ∧
      (b = true → (collapseHyphens b cs).head? ≠ some '-') := by
  intro cs
  induction cs with
  | nil => intro b; exact ⟨rfl, fun _ => by simp [collapseHyphens]⟩
  | cons d ds ih =>
    intro b
    unfold collapseHyphens
    by_cases hd : d == '-'
    · rw [if_pos hd]
      cases b with
      | true => simpa using ih true
      | false =>
        rw [if_neg (by decide : ¬ ((false : Bool) = true))]
        simp only [List.singleton_append]
        constructor
        · rw [occursIn_cons, isPrefixOf_cons_cons]
          have hh := (ih true).2 rfl
          rw [head_ne_of_isPrefixOf_single_false '-' hh]
          simp [(ih true).1]
        · intro hb; exact Bool.noConfusion hb
    · rw [if_neg hd]
      have hne : d ≠ '-' := by intro he; subst he; exact hd rfl
      have hdn : ('-' == d) = false := beq_eq_false_iff_ne.mpr (Ne.symm hne)
      constructor
      · rw [occursIn_cons, isPrefixOf_cons_cons, hdn]
        simp [(ih false).1]
      · intro _
        simp only [List.head?]
        intro he
        have : d = '-' := by injection he
        rw [this] at hd
        exact hd rfl

/-! ## Claim C4: slugify -/

/-- Claim C4 (counterexample): the claim says `slugify` trims leading and
trailing hyphens and removes every character outside
letters/digits/whitespace/hyphen.  The code does neither: the final
`.trim()` only strips whitespace (all of which is already gone), and the
`\w` class also retains underscores.  On `"-a-"` the code returns `"-a-"`
while the claimed contract (`slugifySpecText`) returns `"a"`; on `"a_b"`
the code keeps the underscore. -/
theorem c4_slugify_counterexample :
    slugify "-a-" = "-a-" ∧ slugifySpecText "-a-" = "a"
    ∧ slugify "-a-" ≠ slugifySpecText "-a-"
    ∧ slugify "a_b" = "a_b" ∧ slugifySpecText "a_b" = "ab" := by
  refine ⟨by decide, by decide, by decide, by decide, by decide⟩

/-- Claim C4 (amended): `slugify` lowercases, removes every character
outside word characters (letters, digits, underscore), whitespace and
hyphens, collapses whitespace runs to single hyphens and hyphen runs to a
single hyphen; the final trim removes only whitespace, which no longer
exists at that point, so leading and trailing hyphens are preserved.
Consequently every output character is a lowercase letter, a digit, an
underscore or a hyphen, the output contains no whitespace and no two
adjacent hyphens, `slugify "Household Budget Impacts"` is
`"household-budget-impacts"`, and identical inputs give identical
outputs. -/
theorem c4_slugify_amended :
    slugify "Household Budget Impacts" = "household-budget-impacts"
    ∧ (∀ s t : String, s = t → slugify s = slugify t)
    ∧ (∀ s : String, ∀ c ∈ (slugify s).data,
        (c.isLower || c.isDigit || c == '_' || c == '-') = true)
    ∧ (∀ s : String, ∀ c ∈ (slugify s).data, jsIsSpace c = false)
    ∧ (∀ s : String, occursIn ['-', '-'] (slugify s).data = false) := by
  refine ⟨by decide, fun s t h => by rw [h], ?_, ?_, ?_⟩
  · intro s c hc
    have h1 : c ∈ slugifyL s.data := hc
    have h2 := mem_trimList h1
    rcases mem_collapseHyphens _ false h2 with h3 | h3
    · subst h3; decide
    · rcases mem_spacesToHyphens _ false h3 with h4 | ⟨h4, h5⟩
      · subst h4; decide
      · have h6 := List.mem_filter.mp h4
        have h7 : (jsIsWordChar c || jsIsSpace c || c == '-') = true := h6.2
        obtain ⟨d, _, hd⟩ := List.mem_map.mp h6.1
        have hup : c.isUpper = false := hd ▸ isUpper_toLower d
        have halpha : c.isAlpha = c.isLower := by
          unfold Char.isAlpha
          rw [hup, Bool.false_or]
        rw [jsIsWordChar, halpha, h5, Bool.or_false] at h7
        exact h7
  · intro s c hc
    have h1 : c ∈ slugifyL s.data := hc
    have h2 := mem_trimList h1
    rcases mem_collapseHyphens _ false h2 with h3 | h3
    · subst h3; decide
    · rcases mem_spacesToHyphens _ false h3 with h4 | ⟨_, h5⟩
      · subst h4; decide
      · exact h5
  · intro s
    exact occursIn_trimList_false _ _ (collapseHyphens_no_dd _ false).1

/-- Witness for the amended C4 claim at concrete inputs. -/
theorem c4_slugify_amended_witness :
    slugify "Ab c" = slugify "Ab c"
    ∧ (('-'.isLower || '-'.isDigit || '-' == '_' || '-' == '-') = true)
    ∧ jsIsSpace 'a' = false
    ∧ occursIn ['-', '-'] (slugify "a  -  b").data = false := by
  refine ⟨c4_slugify_amended.2.1 "Ab c" "Ab c" rfl,
    c4_slugify_amended.2.2.1 "a-b" '-' (by decide),
    c4_slugify_amended.2.2.2.1 "abc" 'a' (by decide),
    c4_slugify_amended.2.2.2.2 "a  -  b"⟩

/-! ## Claim C5: lightbox key-listener release -/

/-- Claim C5 (counterexample): dismissing an overlay by clicking the
backdrop removes the overlay but leaves its keydown listener installed on
the document — `close()` (source lines 528-531) never touches the key
handler, which is removed only on the Escape path (source lines 535-540).
So after an open followed by a backdrop-click dismissal one stale keydown
listener remains, contradicting "on every dismissal path the keydown
listener is removed". -/
theorem c5_lightbox_counterexample :
    (lightboxStep (openLightbox lightboxInitial) .clickBackdrop).overlayPresent = false
    ∧ (lightboxStep (openLightbox lightboxInitial) .clickBackdrop).docKeydownListeners = 1
    ∧ (lightboxStep (openLightbox lightboxInitial) .clickDismiss).docKeydownListeners = 1 := by
  exact ⟨rfl, rfl, rfl⟩

/-- Claim C5 (amended): the keydown listener is removed only on the
Escape-key dismissal path.  Backdrop and dismiss-control clicks dismiss the
overlay but leave every installed keydown listener in place (so listeners
accumulate across repeated click-dismissed openings); an Escape keydown
fires every installed handler, each of which closes and removes itself,
leaving zero listeners. -/
theorem c5_lightbox_amended :
    (∀ s : LightboxState,
      (lightboxStep s .clickBackdrop).docKeydownListeners = s.docKeydownListeners)
    ∧ (∀ s : LightboxState,
      (lightboxStep s .clickDismiss).docKeydownListeners = s.docKeydownListeners)
    ∧ (∀ s : LightboxState,
      (lightboxStep s .keydownEscape).docKeydownListeners = 0)
    ∧ (∀ s : LightboxState,
      (openLightbox s).docKeydownListeners = s.docKeydownListeners + 1) := by
  refine ⟨?_, ?_, ?_, fun s => rfl⟩
  · intro s
    simp only [lightboxStep]
    split <;> rfl
  · intro s
    simp only [lightboxStep]
    split <;> rfl
  · intro s
    simp only [lightboxStep]
    split
    · rfl
    · next h => omega

/-! ## Claim C9: the retry cap -/

theorem runRetries_le (cs : List RetryContainer) :
    ∀ n, n ≤ maxAttempts →
      runRetries cs n
        = ({ attempts := n, active := decide (n < maxAttempts) },
           List.replicate n (pendingSources cs)) := by
  intro n
  induction n with
  | zero => intro _; rfl
  | succ m ih =>
    intro hle
    have hm : m ≤ maxAttempts := Nat.le_of_succ_le hle
    have hlt : m < maxAttempts := hle
    unfold runRetries
    rw [ih hm]
    simp [retryTick, decide_eq_true hlt, List.replicate_succ']

theorem retryTick_inactive (cs : List RetryContainer) (t : RetryTimer)
    (h : t.active = false) : retryTick cs t = (t, []) := by
  unfold retryTick
  rw [h]
  simp

/-- Claim C9: for containers that never acquire a snapshot, each of the
first `maxAttempts` (= 3) timer ticks re-attempts the pending loads and
then the timer clears itself permanently — every tick after the third
performs no retrieval attempt at all. -/
theorem c9_retry_cap :
    (∀ (cs : List RetryContainer) (n : Nat), n ≤ maxAttempts →
      runRetries cs n
        = ({ attempts := n, active := decide (n < maxAttempts) },
           List.replicate n (pendingSources cs)))
    ∧ (∀ cs : List RetryContainer, (runRetries cs maxAttempts).1.active = false)
    ∧ (∀ (cs : List RetryContainer) (k : Nat),
      runRetries cs (maxAttempts + k)
        = ((runRetries cs maxAttempts).1,
           (runRetries cs maxAttempts).2 ++ List.replicate k [])) := by
  have hstate : ∀ cs : List RetryContainer, (runRetries cs maxAttempts).1.active = false := by
    intro cs
    rw [runRetries_le cs maxAttempts (Nat.le_refl _)]
    rfl
  refine ⟨runRetries_le, hstate, ?_⟩
  intro cs k
  have hsucc : ∀ n, runRetries cs (n + 1)
      = ((retryTick cs (runRetries cs n).1).1,
         (runRetries cs n).2 ++ [(retryTick cs (runRetries cs n).1).2]) :=
    fun n => rfl
  induction k with
  | zero => simp
  | succ m ih =>
    have hrw : maxAttempts + (m + 1) = (maxAttempts + m) + 1 := rfl
    rw [hrw, hsucc, ih]
    rw [retryTick_inactive cs _ (hstate cs)]
    simp [List.replicate_succ']

/-- Witness for C9 at a concrete container list and tick count. -/
theorem c9_retry_cap_witness :
    (2 ≤ maxAttempts)
    ∧ runRetries [{ source := "a.md", lastRendered := none }] 2
      = ({ attempts := 2, active := true }, [["a.md"], ["a.md"]]) := by
  constructor
  · decide
  · rw [c9_retry_cap.1 [{ source := "a.md", lastRendered := none }] 2 (by decide)]
    rfl

/-! ## Claim C1: the failure path of loadContent -/

/-- Claim C1: on every failed retrieval (non-success status or transport
error) the `catch` block's read of the try-scoped `fallbackContent` raises
a `ReferenceError`, so `loadContent` neither restores the fallback content
nor runs the Interactive Augmenter: the only container mutation performed
is writing the loading indicator, which is left showing, and the async
function rejects.  This contradicts the claim (and the source's own
comments at lines 94 and 139, which state the fallback-restore intent), so
the claim is recorded as a code bug; this theorem evaluates the code's
behaviour on the failing inputs. -/
theorem c1_load_failure_raises :
    ∀ (outcome : FetchOutcome) (priorContent : String), fetchFails outcome = true →
      loadContent outcome priorContent
        = ([LoadEffect.setContent loadingIndicatorHTML], some JsError.referenceError) := by
  intro outcome prior h
  cases outcome with
  | transportError => rfl
  | response status body =>
    simp only [fetchFails, Bool.not_eq_true'] at h
    unfold loadContent
    simp [h, catchBlockFallbackLookup]

/-- Witness for C1 at a concrete failing fetch (HTTP 404). -/
theorem c1_load_failure_raises_witness :
    fetchFails (FetchOutcome.response 404 "irrelevant") = true
    ∧ loadContent (FetchOutcome.response 404 "irrelevant") "<p>fallback</p>"
      = ([LoadEffect.setContent loadingIndicatorHTML], some JsError.referenceError) :=
  ⟨by decide,
   c1_load_failure_raises (FetchOutcome.response 404 "irrelevant") "<p>fallback</p>"
     (by decide)⟩

/-! ## Claim C6: heading id and navigation round-trip -/

/-- Claim C6: the line `## Costs for Energy at Home` renders as a level-2
heading whose id is `costs-for-energy-at-home`, and the navigation
generator's target for that heading — its existing id, since it is
nonempty — is the same identifier, which appears as both the link target
and the `data-target` of the emitted navigation entry. -/
theorem c6_heading_nav_roundtrip :
    parseMarkdown "## Costs for Energy at Home"
      = "<h2 id=\"costs-for-energy-at-home\">Costs for Energy at Home</h2>"
    ∧ firstH2 (parseMarkdown "## Costs for Energy at Home")
      = some ("costs-for-energy-at-home", "Costs for Energy at Home")
    ∧ tocTarget "costs-for-energy-at-home" "Costs for Energy at Home"
      = "costs-for-energy-at-home"
    ∧ containsStr "data-target=\"costs-for-energy-at-home\""
        (tocEntry "h2" (tocTarget "costs-for-energy-at-home" "Costs for Energy at Home")
          "Costs for Energy at Home") = true
    ∧ containsStr "href=\"#costs-for-energy-at-home\""
        (tocEntry "h2" "costs-for-energy-at-home" "Costs for Energy at Home") = true := by
  exact ⟨by decide, by decide, by decide, by decide, by decide⟩

/-! ## Claims C8 and C10: image-syntax priority on the combined input -/

/-- Claim C8: on `![a](p.png "c"){.x}`, which matches both the captioned
and the classed syntax, the captioned pass — which runs first — wins: the
output contains a figure with caption `c` whose image source is the
resolved `../assets/p.png`, and no `class="x"` is applied anywhere.  The
strict priority captioned → classed → plain is the pass order of
`parseMarkdownL` itself; the remaining conjuncts exhibit the first-match
consumption on this input. -/
theorem c8_image_priority :
    parseMarkdown "![a](p.png \"c\")\x7b.x\x7d"
      = "<figure class=\"figure\">\n                <img src=\"../assets/p.png\" alt=\"a\" loading=\"lazy\">\n                <figcaption class=\"figure-caption\">c</figcaption>\n            </figure>\x7b.x\x7d"
    ∧ containsStr "<figcaption class=\"figure-caption\">c</figcaption>"
        (parseMarkdown "![a](p.png \"c\")\x7b.x\x7d") = true
    ∧ containsStr "src=\"../assets/p.png\""
        (parseMarkdown "![a](p.png \"c\")\x7b.x\x7d") = true
    ∧ containsStr "class=\"x\""
        (parseMarkdown "![a](p.png \"c\")\x7b.x\x7d") = false
    ∧ parseMarkdown "![a](p.png)\x7b.x\x7d"
      = "<p><img src=\"../assets/p.png\" alt=\"a\" class=\"x\" loading=\"lazy\"></p>"
    ∧ parseMarkdown "![a](p.png)"
      = "<p><img src=\"../assets/p.png\" alt=\"a\" loading=\"lazy\"></p>" := by
  exact ⟨by decide, by decide, by decide, by decide, by decide, by decide⟩

/-- Claim C10: the captioned-image pass consumes `![a](p.png "c")` only
through the closing parenthesis, so the rendered output is exactly the
figure replacement followed by the literal leftover text consisting of the
brace, dot, class name and closing brace, sitting immediately after the
closing figure tag; the class is never applied. -/
theorem c10_class_marker_left_behind :
    (parseMarkdown "![a](p.png \"c\")\x7b.x\x7d").data
      = figureRepl "a".data "p.png".data "c".data ++ "\x7b.x\x7d".data
    ∧ containsStr "</figure>\x7b.x\x7d"
        (parseMarkdown "![a](p.png \"c\")\x7b.x\x7d") = true
    ∧ containsStr "class=\"x\""
        (parseMarkdown "![a](p.png \"c\")\x7b.x\x7d") = false := by
  exact ⟨by decide, by decide, by decide⟩

/-! ## Claim C2: idempotence of paragraph wrapping -/

/-- Claim C2 (counterexample): applying the full transformation twice does
double-process block elements: the escaping pass of the second run rewrites
the angle brackets of the first run's `<h1>` output, after which the
paragraph pass no longer recognizes a block-level tag and wraps the whole
(escaped) heading in a paragraph element. -/
theorem c2_idempotence_counterexample :
    parseMarkdown "# Title" = "<h1>Title</h1>"
    ∧ parseMarkdown (parseMarkdown "# Title") = "<p>&lt;h1&gt;Title&lt;/h1&gt;</p>"
    ∧ parseMarkdown (parseMarkdown "# Title") ≠ parseMarkdown "# Title" := by
  exact ⟨by decide, by decide, by decide⟩

/-- Claim C2 (amended): the paragraph-wrapping pass itself is idempotent in
the claimed sense — any block that (after trimming) starts with one of the
recognized block-level tags is returned unwrapped, so re-running the
paragraph pass never wraps such a block — but the full transformation is
not, because its escaping pass rewrites the angle brackets of previously
produced tags before the paragraph pass runs. -/
theorem c2_paragraph_pass_amended :
    (∀ b : List Char, startsBlockTag (trimList b) = true → wrapBlock b = trimList b)
    ∧ parseParagraphs "<h1>Title</h1>" = "<h1>Title</h1>"
    ∧ parseParagraphs (parseParagraphs "<h1>Title</h1>")
      = parseParagraphs "<h1>Title</h1>" := by
  refine ⟨?_, by decide, by decide⟩
  intro b h
  unfold wrapBlock
  simp only [h, if_true]

/-- Witness for the amended C2 claim at a concrete block. -/
theorem c2_paragraph_pass_amended_witness :
    wrapBlock "<ul><li>x</li></ul>".data = trimList "<ul><li>x</li></ul>".data :=
  c2_paragraph_pass_amended.1 "<ul><li>x</li></ul>".data (by decide)

/-! ## Claim C7: list-transition correctness -/

/-- Claim C7: the line sequence `- a`, `- b`, `1. c` produces one
unordered list holding `a` and `b`, closed before a sibling ordered list
holding `c` is opened — and in general, inside the scan, a line of the
other list type closes the open list before opening the new one, and a
non-list line closes the open list. -/
theorem c7_list_transitions :
    parseLists "- a\n- b\n1. c"
      = "<ul>\n<li>a</li>\n<li>b</li>\n</ul>\n<ol>\n<li>c</li>\n</ol>"
    ∧ parseMarkdown "- a\n- b\n1. c"
      = "<ul>\n<li>a</li>\n<li>b</li>\n</ul>\n<ol>\n<li>c</li>\n</ol>"
    ∧ (∀ (st : ListScanState) (line item : List Char),
        st.inList = true → st.listType = "ul" → ulMatchLine line = none →
        olMatchLine line = some item →
        processLine st line
          = (⟨true, "ol"⟩,
             ["</ul>".data, "<ol>".data, "<li>".data ++ item ++ "</li>".data]))
    ∧ (∀ (st : ListScanState) (line item : List Char),
        st.inList = true → st.listType = "ol" → ulMatchLine line = some item →
        processLine st line
          = (⟨true, "ul"⟩,
             ["</ol>".data, "<ul>".data, "<li>".data ++ item ++ "</li>".data]))
    ∧ (∀ (st : ListScanState) (line : List Char),
        st.inList = true → ulMatchLine line = none → olMatchLine line = none →
        processLine st line = (⟨false, ""⟩, [closeTag st, line])) := by
  refine ⟨by decide, by decide, ?_, ?_, ?_⟩
  · intro st line item hin hty hul hol
    have hclose : closeTag st = "</ul>".data := by
      unfold closeTag
      rw [hty]
      decide
    have hb : (st.listType != "ol") = true := by rw [hty]; decide
    unfold processLine
    rw [hul, hol]
    simp [hin, hb, hclose]
  · intro st line item hin hty hul
    have hclose : closeTag st = "</ol>".data := by
      unfold closeTag
      rw [hty]
      decide
    have hb : (st.listType != "ul") = true := by rw [hty]; decide
    unfold processLine
    rw [hul]
    simp [hin, hb, hclose]
  · intro st line hin hul hol
    unfold processLine
    rw [hul, hol]
    simp [hin]

/-- Witness for C7 at the transition line of the concrete sequence. -/
theorem c7_list_transitions_witness :
    processLine ⟨true, "ul"⟩ "1. c".data
      = (⟨true, "ol"⟩, ["</ul>".data, "<ol>".data, "<li>".data ++ "c".data ++ "</li>".data]) :=
  c7_list_transitions.2.2.1 ⟨true, "ul"⟩ "1. c".data "c".data rfl rfl (by decide) (by decide)

/-! ## Claim C3: generated heading identifiers -/

theorem ne_of_isAlphanum {c : Char} (h : c.isAlphanum = true) (d : Char)
    (hd : d.isAlphanum = false) : c ≠ d := by
  intro he
  subst he
  rw [h] at hd
  exact Bool.noConfusion hd

theorem jsIsSpace_false_of_isAlphanum {c : Char} (h : c.isAlphanum = true) :
    jsIsSpace c = false := by
  unfold jsIsSpace
  simp [beq_eq_false_iff_ne.mpr (ne_of_isAlphanum h ' ' (by decide)),
    beq_eq_false_iff_ne.mpr (ne_of_isAlphanum h '\t' (by decide)),
    beq_eq_false_iff_ne.mpr (ne_of_isAlphanum h '\n' (by decide)),
    beq_eq_false_iff_ne.mpr (ne_of_isAlphanum h '\r' (by decide)),
    beq_eq_false_iff_ne.mpr (ne_of_isAlphanum h '\x0b' (by decide)),
    beq_eq_false_iff_ne.mpr (ne_of_isAlphanum h '\x0c' (by decide))]

theorem not_mem_of_heading_class {l : List Char}
    (hcls : ∀ c ∈ l, c.isAlphanum = true ∨ c = ' ') (d : Char)
    (hd1 : d.isAlphanum = false) (hd2 : d ≠ ' ') : d ∉ l := by
  intro hmem
  rcases hcls d hmem with h | h
  · rw [hd1] at h
    exact Bool.noConfusion h
  · exact hd2 h

theorem contains_eq_false_of_not_mem {a : Char} {l : List Char} (h : a ∉ l) :
    l.contains a = false := by
  cases hc : l.contains a
  · rfl
  · exact absurd (List.mem_of_elem_eq_true hc) h

theorem splitFirst_boundary (p0 : Char) (pt : List Char) :
    ∀ (xs ys : List Char), p0 ∉ xs →
      splitFirst (p0 :: pt) (xs ++ ((p0 :: pt) ++ ys)) = some (xs, ys) := by
  intro xs
  induction xs with
  | nil =>
    intro ys _
    rw [List.nil_append]
    show splitFirst (p0 :: pt) ((p0 :: pt) ++ ys) = some ([], ys)
    have hcons : (p0 :: pt) ++ ys = p0 :: (pt ++ ys) := rfl
    rw [hcons]
    unfold splitFirst
    rw [← hcons, isPrefixOf_append_self]
    simp [List.drop_left]
  | cons x xs ih =>
    intro ys hmem
    have hx : p0 ∉ xs := fun h => hmem (List.mem_cons_of_mem x h)
    have hpx : (p0 == x) = false :=
      beq_eq_false_iff_ne.mpr (fun he => hmem (he ▸ List.mem_cons_self x xs))
    rw [List.cons_append]
    unfold splitFirst
    rw [isPrefixOf_cons_cons, hpx]
    simp only [Bool.false_and, Bool.false_eq_true, if_false, ih ys hx]

theorem splitOnNl_no_nl {cs : List Char} (h : '\n' ∉ cs) : splitOnNl cs = [cs] := by
  induction cs with
  | nil => rfl
  | cons c cs ih =>
    have hc : (c == '\n') = false :=
      beq_eq_false_iff_ne.mpr (fun he => h (he ▸ List.mem_cons_self c cs))
    have h' : '\n' ∉ cs := fun hm => h (List.mem_cons_of_mem c hm)
    unfold splitOnNl
    rw [ih h', hc]
    simp

theorem applyLinewise_no_nl (f : List Char → List Char) {cs : List Char}
    (h : '\n' ∉ cs) : applyLinewise f cs = f cs := by
  unfold applyLinewise
  rw [splitOnNl_no_nl h]
  rfl

theorem applyH2IdsFuel_nil : ∀ n, applyH2IdsFuel n [] = [] := by
  intro n
  cases n <;> rfl

/-- Fully evaluate the id-generation pass on a buffer consisting of exactly
one level-2 heading element whose id text and content are the same
quote-free, bracket-free, newline-free nonempty text. -/
theorem applyH2IdsFuel_exact (c : Char) (l' : List Char)
    (hq : '"' ∉ c :: l') (hlt : '<' ∉ c :: l') (hnl : '\n' ∉ c :: l') (n : Nat) :
    applyH2IdsFuel (n + 1)
      ('<' :: 'h' :: '2' :: ' ' :: 'i' :: 'd' :: '=' :: '"' ::
        (c :: (l' ++ '"' :: '>' :: (c :: (l' ++ ['<', '/', 'h', '2', '>'])))))
      = "<h2 id=\"".data ++ slugifyL (c :: l') ++ "\">".data ++ (c :: l')
        ++ "</h2>".data := by
  have hq' : '"' ∉ l' := fun h => hq (List.mem_cons_of_mem c h)
  have hlt' : '<' ∉ l' := fun h => hlt (List.mem_cons_of_mem c h)
  have hnlc : (c :: l').contains '\n' = false := contains_eq_false_of_not_mem hnl
  unfold applyH2IdsFuel
  have hpre : "<h2 id=\"".data.isPrefixOf
      ('<' :: 'h' :: '2' :: ' ' :: 'i' :: 'd' :: '=' :: '"' ::
        (c :: (l' ++ '"' :: '>' :: (c :: (l' ++ ['<', '/', 'h', '2', '>']))))) = true := by
    simp [show "<h2 id=\"".data = ['<', 'h', '2', ' ', 'i', 'd', '=', '"'] from rfl,
      isPrefixOf_cons_cons]
  rw [hpre]
  simp only [if_true]
  have hdrop : (('<' :: 'h' :: '2' :: ' ' :: 'i' :: 'd' :: '=' :: '"' ::
      (c :: (l' ++ '"' :: '>' :: (c :: (l' ++ ['<', '/', 'h', '2', '>'])))))).drop 8
      = c :: (l' ++ '"' :: '>' :: (c :: (l' ++ ['<', '/', 'h', '2', '>']))) := rfl
  rw [hdrop]
  have hsplit1 : splitFirst "\">".data (l' ++ '"' :: '>' :: (c :: (l' ++ ['<', '/', 'h', '2', '>'])))
      = some (l', c :: (l' ++ ['<', '/', 'h', '2', '>'])) := by
    have hform : l' ++ '"' :: '>' :: (c :: (l' ++ ['<', '/', 'h', '2', '>']))
        = l' ++ (('"' :: ['>']) ++ (c :: (l' ++ ['<', '/', 'h', '2', '>']))) := rfl
    rw [show "\">".data = '"' :: ['>'] from rfl, hform]
    exact splitFirst_boundary '"' ['>'] l' _ hq'
  have hlc1 : lazyCapture "\">".data
      (c :: (l' ++ '"' :: '>' :: (c :: (l' ++ ['<', '/', 'h', '2', '>']))))
      = some (c :: l', c :: (l' ++ ['<', '/', 'h', '2', '>'])) := by
    simp only [lazyCapture]
    rw [hsplit1]
  rw [hlc1]
  simp only [hnlc, Bool.false_eq_true, if_false]
  have hsplit2 : splitFirst "</h2>".data (l' ++ ['<', '/', 'h', '2', '>'])
      = some (l', []) := by
    have hform : l' ++ ['<', '/', 'h', '2', '>']
        = l' ++ (('<' :: ['/', 'h', '2', '>']) ++ []) := by simp
    rw [show "</h2>".data = '<' :: ['/', 'h', '2', '>'] from rfl, hform]
    exact splitFirst_boundary '<' ['/', 'h', '2', '>'] l' [] hlt'
  have hlc2 : lazyCapture "</h2>".data (c :: (l' ++ ['<', '/', 'h', '2', '>']))
      = some (c :: l', []) := by
    simp only [lazyCapture]
    rw [hsplit2]
  rw [hlc2]
  simp only [hnlc, Bool.false_eq_true, if_false]
  rw [applyH2IdsFuel_nil n]
  simp

/-- Claim C3 (counterexample): the transformer writes a generated
identifier only on level-2 headings.  A level-1 heading renders with no
identifier attribute at all, refuting "this holds for every heading level
1 through 6". -/
theorem c3_heading_ids_counterexample :
    parseMarkdown "# Hello" = "<h1>Hello</h1>"
    ∧ containsStr "id=" (parseMarkdown "# Hello") = false
    ∧ parseMarkdown "### Hello" = "<h3>Hello</h3>"
    ∧ containsStr "id=" (parseMarkdown "### Hello") = false := by
  exact ⟨by decide, by decide, by decide, by decide⟩

/-- Claim C3 (amended): only level-2 heading lines carry a generated
identifier.  For every heading text (nonempty, made of alphanumerics and
spaces, not starting with a space) the heading stage maps the level-2 line
to a heading whose identifier is exactly the slug of its text — a
deterministic, lowercase, hyphenated function of the text, stable across
renders since the transformer is a pure function (conjunct two) — while
levels 1 and 3 through 6 render with no identifier attribute (concrete
instances, including a level-3 output free of any id attribute). -/
theorem c3_heading_ids_amended :
    (∀ t : String, t.data ≠ [] → t.data.head? ≠ some ' ' →
      (∀ c ∈ t.data, c.isAlphanum = true ∨ c = ' ') →
      headingStage ('#' :: '#' :: ' ' :: t.data)
        = "<h2 id=\"".data ++ slugifyL t.data ++ "\">".data ++ t.data ++ "</h2>".data)
    ∧ (∀ s t : String, s = t → parseMarkdown s = parseMarkdown t)
    ∧ parseMarkdown "## Hello World" = "<h2 id=\"hello-world\">Hello World</h2>"
    ∧ parseMarkdown "# Hello" = "<h1>Hello</h1>"
    ∧ parseMarkdown "### Hello" = "<h3>Hello</h3>"
    ∧ parseMarkdown "#### Hello" = "<h4>Hello</h4>"
    ∧ parseMarkdown "##### Hello" = "<h5>Hello</h5>"
    ∧ parseMarkdown "###### Hello" = "<h6>Hello</h6>"
    ∧ containsStr "id=" (parseMarkdown "### Hello") = false := by
  refine ⟨?_, fun s t h => by rw [h], by decide, by decide, by decide, by decide,
    by decide, by decide, by decide⟩
  intro t ht hh hcls
  obtain ⟨c, l', hcl⟩ : ∃ c l', t.data = c :: l' := by
    cases hd : t.data with
    | nil => exact absurd hd ht
    | cons c l' => exact ⟨c, l', rfl⟩
  rw [hcl] at hh hcls ⊢
  have hcalpha : c.isAlphanum = true := by
    rcases hcls c (List.mem_cons_self c l') with h | h
    · exact h
    · exact absurd (congrArg Option.some h) hh
  have hcspace : jsIsSpace c = false := jsIsSpace_false_of_isAlphanum hcalpha
  have hnl : '\n' ∉ c :: l' := not_mem_of_heading_class hcls '\n' (by decide) (by decide)
  have hq : '"' ∉ c :: l' := not_mem_of_heading_class hcls '"' (by decide) (by decide)
  have hlt : '<' ∉ c :: l' := not_mem_of_heading_class hcls '<' (by decide) (by decide)
  have hnlsplit := hnl
  simp only [List.mem_cons, not_or] at hnlsplit
  have hL0nl : '\n' ∉ '#' :: '#' :: ' ' :: c :: l' := by
    simp only [List.mem_cons, not_or]
    exact ⟨by decide, by decide, by decide, hnlsplit.1, hnlsplit.2⟩
  have pass6 : applyLinewise (headingLine 6) ('#' :: '#' :: ' ' :: c :: l')
      = '#' :: '#' :: ' ' :: c :: l' := by
    rw [applyLinewise_no_nl _ hL0nl]
    rfl
  have pass5 : applyLinewise (headingLine 5) ('#' :: '#' :: ' ' :: c :: l')
      = '#' :: '#' :: ' ' :: c :: l' := by
    rw [applyLinewise_no_nl _ hL0nl]
    rfl
  have pass4 : applyLinewise (headingLine 4) ('#' :: '#' :: ' ' :: c :: l')
      = '#' :: '#' :: ' ' :: c :: l' := by
    rw [applyLinewise_no_nl _ hL0nl]
    rfl
  have pass3 : applyLinewise (headingLine 3) ('#' :: '#' :: ' ' :: c :: l')
      = '#' :: '#' :: ' ' :: c :: l' := by
    rw [applyLinewise_no_nl _ hL0nl]
    rfl
  have hmst : matchSpaceText (' ' :: c :: l') = some (c :: l') := by
    unfold matchSpaceText
    simp [List.takeWhile_cons, List.dropWhile_cons, hcspace,
      show jsIsSpace ' ' = true from rfl]
  have pass2 : applyLinewise (headingLine 2) ('#' :: '#' :: ' ' :: c :: l')
      = "<h2 id=\"".data ++ (c :: l') ++ "\">".data ++ (c :: l') ++ "</h2>".data := by
    rw [applyLinewise_no_nl _ hL0nl]
    unfold headingLine
    rw [show (List.replicate 2 '#').isPrefixOf ('#' :: '#' :: ' ' :: c :: l') = true from rfl,
      if_pos rfl]
    rw [show ('#' :: '#' :: ' ' :: c :: l').drop 2 = ' ' :: c :: l' from rfl, hmst]
    rfl
  have hform : "<h2 id=\"".data ++ (c :: l') ++ "\">".data ++ (c :: l') ++ "</h2>".data
      = '<' :: 'h' :: '2' :: ' ' :: 'i' :: 'd' :: '=' :: '"' ::
        (c :: (l' ++ '"' :: '>' :: (c :: (l' ++ ['<', '/', 'h', '2', '>'])))) := by
    rw [show "<h2 id=\"".data = ['<', 'h', '2', ' ', 'i', 'd', '=', '"'] from rfl,
      show "\">".data = ['"', '>'] from rfl,
      show "</h2>".data = ['<', '/', 'h', '2', '>'] from rfl]
    simp [List.cons_append, List.append_assoc]
  have hL2nl : '\n' ∉ "<h2 id=\"".data ++ (c :: l') ++ "\">".data ++ (c :: l')
      ++ "</h2>".data := by
    simp only [List.mem_append, not_or]
    exact ⟨⟨⟨⟨by decide, hnl⟩, by decide⟩, hnl⟩, by decide⟩
  have pass1 : applyLinewise (headingLine 1)
      ("<h2 id=\"".data ++ (c :: l') ++ "\">".data ++ (c :: l') ++ "</h2>".data)
      = "<h2 id=\"".data ++ (c :: l') ++ "\">".data ++ (c :: l') ++ "</h2>".data := by
    rw [applyLinewise_no_nl _ hL2nl]
    rw [hform]
    rfl
  simp only [headingStage]
  rw [pass6, pass5, pass4, pass3, pass2, pass1, hform, List.length_cons]
  exact applyH2IdsFuel_exact c l' hq hlt hnl _

/-- Witness for the amended C3 claim at a concrete heading text. -/
theorem c3_heading_ids_amended_witness :
    headingStage ('#' :: '#' :: ' ' :: ("Budget Impacts" : String).data)
      = "<h2 id=\"".data ++ slugifyL ("Budget Impacts" : String).data ++ "\">".data
        ++ ("Budget Impacts" : String).data ++ "</h2>".data :=
  c3_heading_ids_amended.1 "Budget Impacts" (by decide) (by decide) (by decide)

end ContentLoader
